import Mathlib

/-!
Verification development for the ReactAdminTemplate client data slices,
the file-manager view filter, and the Remote Store shapes collection.

The definitions below are shallow embeddings of the TypeScript sources:
  - features/files/filesSlice.ts   (files slice reducers)
  - features/users/usersSlice.ts   (users slice reducers)
  - pages/files/FileManager2.tsx   (folder list, filtered list, locked flag)
and, where the repository sources do not include the code itself, models
built from the specification text (marked in the doc comments).

Redux reducers become pure functions from a state and an action to a new
state; a thunk contributes one action per lifecycle phase (pending,
fulfilled, rejected).  Lifecycle phases the slice registers no handler
for map to the identity, which is the Redux default for unhandled
actions.  JavaScript arrays become lists, optional object fields become
Option values, and numeric ids become Nat.
-/

/-- FileItem from features/files/filesSlice.ts.  The optional
content_base64 field is none when the JSON object carries no such key. -/
structure FileItem where
  id : Nat
  name : String
  mime_type : String
  size : Nat
  description : String
  tags : List String
  uploaded : String
  project : String
  folder : String
  content_base64 : Option String
deriving DecidableEq

/-- FilesState from features/files/filesSlice.ts.  error is none for the
JavaScript null. -/
structure FilesState where
  list : List FileItem
  loading : Bool
  saving : Bool
  error : Option String
deriving DecidableEq

/-- initialState of the files slice. -/
def filesInitialState : FilesState :=
  { list := [], loading := false, saving := false, error := none }

/-- The actions the five files thunks dispatch: one pending, fulfilled and
rejected action per thunk (fetchFiles, fetchFile, uploadFile, updateFile,
deleteFile). -/
inductive FilesAction where
  | fetchFilesPending
  | fetchFilesFulfilled (payload : List FileItem)
  | fetchFilesRejected (msg : String)
  | fetchFilePending
  | fetchFileFulfilled (payload : FileItem)
  | fetchFileRejected (msg : String)
  | uploadFilePending
  | uploadFileFulfilled (payload : FileItem)
  | uploadFileRejected (msg : String)
  | updateFilePending
  | updateFileFulfilled (payload : FileItem)
  | updateFileRejected (msg : String)
  | deleteFilePending
  | deleteFileFulfilled (id : Nat)
  | deleteFileRejected (msg : String)

/-- The object spread of updateFile.fulfilled:
s.list[idx] = { ...s.list[idx], ...a.payload }.  Every mandatory field of
the response overrides the cached record; the optional content_base64 key
overrides only when the response carries it. -/
def mergeFileItem (old resp : FileItem) : FileItem :=
  { resp with content_base64 := resp.content_base64 <|> old.content_base64 }

/-- The extraReducers of the files slice (filesSlice.ts, createSlice).
fetchFile registers only a fulfilled handler, so its pending and rejected
actions fall through to the Redux default and return the state unchanged. -/
def filesReducer (s : FilesState) : FilesAction → FilesState
  | .fetchFilesPending => { s with loading := true, error := none }
  | .fetchFilesFulfilled payload => { s with loading := false, list := payload }
  | .fetchFilesRejected msg => { s with loading := false, error := some msg }
  | .fetchFilePending => s
  | .fetchFileFulfilled payload =>
      match s.list.findIdx? (fun f => f.id == payload.id) with
      | some idx => { s with list := s.list.set idx payload }
      | none => s
  | .fetchFileRejected _ => s
  | .uploadFilePending => { s with saving := true, error := none }
  | .uploadFileFulfilled payload => { s with saving := false, list := s.list ++ [payload] }
  | .uploadFileRejected msg => { s with saving := false, error := some msg }
  | .updateFilePending => { s with saving := true, error := none }
  | .updateFileFulfilled payload =>
      match s.list.findIdx? (fun f => f.id == payload.id) with
      | some idx =>
          { s with saving := false,
                   list := s.list.modify (fun old => mergeFileItem old payload) idx }
      | none => { s with saving := false }
  | .updateFileRejected msg => { s with saving := false, error := some msg }
  | .deleteFilePending => { s with saving := true, error := none }
  | .deleteFileFulfilled id =>
      { s with saving := false, list := s.list.filter (fun f => f.id != id) }
  | .deleteFileRejected msg => { s with saving := false, error := some msg }

/-- The avatar_mode union type of usersSlice.ts. -/
inductive AvatarMode where
  | letter
  | image
deriving DecidableEq

/-- UserRow from features/users/usersSlice.ts.  The optional fields are
none when the JSON object carries no such key (or a null value). -/
structure UserRow where
  id : Nat
  name : String
  email : String
  role : String
  status : String
  joined : String
  avatar_mode : Option AvatarMode
  avatar_base64 : Option String
deriving DecidableEq

/-- UsersState from features/users/usersSlice.ts. -/
structure UsersState where
  list : List UserRow
  loading : Bool
  saving : Bool
  error : Option String
deriving DecidableEq

/-- initialState of the users slice. -/
def usersInitialState : UsersState :=
  { list := [], loading := false, saving := false, error := none }

/-- The actions the four users thunks dispatch. -/
inductive UsersAction where
  | fetchUsersPending
  | fetchUsersFulfilled (payload : List UserRow)
  | fetchUsersRejected (msg : String)
  | createUserPending
  | createUserFulfilled (payload : UserRow)
  | createUserRejected (msg : String)
  | updateUserPending
  | updateUserFulfilled (payload : UserRow)
  | updateUserRejected (msg : String)
  | deleteUserPending
  | deleteUserFulfilled (id : Nat)
  | deleteUserRejected (msg : String)

/-- The extraReducers of the users slice (usersSlice.ts, createSlice).
updateUser.fulfilled replaces the cached row wholesale: s.list[i] = a.payload. -/
def usersReducer (s : UsersState) : UsersAction → UsersState
  | .fetchUsersPending => { s with loading := true, error := none }
  | .fetchUsersFulfilled payload => { s with loading := false, list := payload }
  | .fetchUsersRejected msg => { s with loading := false, error := some msg }
  | .createUserPending => { s with saving := true, error := none }
  | .createUserFulfilled payload => { s with saving := false, list := s.list ++ [payload] }
  | .createUserRejected msg => { s with saving := false, error := some msg }
  | .updateUserPending => { s with saving := true, error := none }
  | .updateUserFulfilled payload =>
      match s.list.findIdx? (fun u => u.id == payload.id) with
      | some idx => { s with saving := false, list := s.list.set idx payload }
      | none => { s with saving := false }
  | .updateUserRejected msg => { s with saving := false, error := some msg }
  | .deleteUserPending => { s with saving := true, error := none }
  | .deleteUserFulfilled id =>
      { s with saving := false, list := s.list.filter (fun u => u.id != id) }
  | .deleteUserRejected msg => { s with saving := false, error := some msg }

/-- Containment of one character list in another as a contiguous
subsequence, testing every starting position.  startsWithChars checks one
position. -/
def startsWithChars : List Char → List Char → Bool
  | _, [] => true
  | [], _ :: _ => false
  | c :: cs, d :: ds => c == d && startsWithChars cs ds

/-- The test behind JavaScript String.prototype.includes used by
FileManager2.tsx: the pattern occurs somewhere in the string (the empty
pattern always occurs). -/
def strIncludes (s pattern : String) : Bool :=
  go s.data pattern.data
where
  go : List Char → List Char → Bool
  | [], needle => needle.isEmpty
  | c :: cs, needle => startsWithChars (c :: cs) needle || go cs needle

/-- The filter predicate of filteredList in pages/files/FileManager2.tsx:
lowercase the search query; a record matches the search when the query is
empty or occurs case-insensitively in its name, one of its tags, or its
project; a non-empty query makes the search result win regardless of the
tree selection, otherwise the root selection (currentFolder = none) shows
everything and a folder selection compares the folder field. -/
def fileMatchesFilter (searchQuery : String) (currentFolder : Option String)
    (f : FileItem) : Bool :=
  let q := searchQuery.toLower
  let matchSearch :=
    q == "" || strIncludes f.name.toLower q
      || f.tags.any (fun t => strIncludes t.toLower q)
      || strIncludes f.project.toLower q
  if q != "" then
    matchSearch
  else
    match currentFolder with
    | none => true
    | some c => f.folder == c

/-- filteredList of pages/files/FileManager2.tsx: list.filter over the
search and tree-selection predicate. -/
def filteredListOf (list : List FileItem) (searchQuery : String)
    (currentFolder : Option String) : List FileItem :=
  list.filter (fileMatchesFilter searchQuery currentFolder)

/-- folders of pages/files/FileManager2.tsx:
[...new Set(list.map((f) => f.folder).filter(Boolean))].sort() — the
folder fields, without the empty string, first occurrences kept by the
Set, sorted lexicographically. -/
def foldersOf (list : List FileItem) : List String :=
  List.insertionSort (· ≤ ·) ((list.map (fun f => f.folder)).filter (fun s => s != "")).eraseDups

/-- The locked flag FileManager2.tsx passes to a FileCard:
file.folder !== '' && lockedFolders.includes(file.folder). -/
def fileCardLocked (lockedFolders : List String) (f : FileItem) : Bool :=
  f.folder != "" && lockedFolders.contains f.folder

/-- Modelled from the spec: the toggleFolderLock(folderName) reducer of
the files slice holding state.files.lockedFolders.  The slice file in the
sources does not contain this reducer (FileManager2.tsx imports it and
the README documents it as: adds to / removes from lockedFolders), so it
is modelled from that wording: a listed name is removed, an unlisted name
is added. -/
def toggleFolderLock (lockedFolders : List String) (name : String) : List String :=
  if lockedFolders.contains name then
    lockedFolders.filter (fun n => n != name)
  else
    lockedFolders ++ [name]

/-- Modelled from the spec: an incoming drawn shape posted to the Remote
Store shapes collection, before the store assigns it an id (the backend
route file backend/routes/maps.py is not among the sources).  The
coordinate and metadata fields are abstracted into the name and type
labels the spec describes; only the id assignment matters here. -/
structure ShapePayload where
  name : String
  type : String
deriving DecidableEq

/-- Modelled from the spec: a StoredShape held by the Remote Store shapes
collection, a server-assigned id plus the shape payload. -/
structure StoredShapeRec where
  id : Nat
  name : String
  type : String
deriving DecidableEq

/-- Modelled from the spec: the id rule of the Remote Store — next
integer id is max existing + 1, or 1 if the collection is empty. -/
def shapesNextId (shapes : List StoredShapeRec) : Nat :=
  (shapes.map (fun s => s.id)).foldr max 0 + 1

/-- Modelled from the spec: append assigns ids to each incoming shape in
turn, starting at the next free id. -/
def assignShapeIds (startId : Nat) : List ShapePayload → List StoredShapeRec
  | [] => []
  | p :: ps => { id := startId, name := p.name, type := p.type } :: assignShapeIds (startId + 1) ps

/-- Modelled from the spec: POST /maps/shapes — append(list) adds the
incoming shapes, with fresh ids, after the existing collection without
removing prior entries. -/
def shapesAppend (shapes : List StoredShapeRec) (incoming : List ShapePayload) :
    List StoredShapeRec :=
  shapes ++ assignShapeIds (shapesNextId shapes) incoming

/-- Modelled from the spec: GET /maps/shapes — list() returns all records
of the collection. -/
def shapesList (shapes : List StoredShapeRec) : List StoredShapeRec :=
  shapes

/-- A sample cached file record used by concrete witnesses. -/
def exFileA : FileItem :=
  { id := 1, name := "Report", mime_type := "application/pdf", size := 100,
    description := "quarterly report", tags := ["work"], uploaded := "2024-01-01",
    project := "Alpha", folder := "docs", content_base64 := none }

/-- A sample record with a fresh id and an empty folder. -/
def exFileB : FileItem :=
  { exFileA with id := 2, name := "Notes", folder := "" }

/-- A sample record differing from exFileA only in its name. -/
def exFileE : FileItem :=
  { exFileA with name := "Summary" }

/-- A sample cached record holding a content payload. -/
def exFileC : FileItem :=
  { id := 7, name := "Plan", mime_type := "text/plain", size := 4, description := "old",
    tags := ["a"], uploaded := "2024-02-02", project := "Beta", folder := "docs",
    content_base64 := some "QUJD" }

/-- A sample update response for exFileC that omits the content payload. -/
def exFileD : FileItem :=
  { exFileC with description := "new", content_base64 := none }

/-- A sample cached user row holding an avatar payload. -/
def exUserA : UserRow :=
  { id := 3, name := "Sam", email := "sam@example.com", role := "admin",
    status := "active", joined := "2024-01-01", avatar_mode := some .image,
    avatar_base64 := some "QUJD" }

/-- A sample update response for exUserA that omits the avatar fields. -/
def exUserB : UserRow :=
  { exUserA with name := "Sam Q", avatar_mode := none, avatar_base64 := none }

/-- Two sample stored shapes and one incoming payload. -/
def exShape1 : StoredShapeRec :=
  { id := 1, name := "Circle A", type := "circle" }

/-- Second sample stored shape. -/
def exShape2 : StoredShapeRec :=
  { id := 2, name := "Marker B", type := "marker" }

/-- Sample incoming shape payload. -/
def exPayload1 : ShapePayload :=
  { name := "Polygon C", type := "polygon" }

/-- Lowercasing a string keeps it empty or non-empty. -/
theorem toLower_eq_empty_iff (s : String) : s.toLower = "" ↔ s = "" := by
  rw [String.toLower, String.map_eq]
  cases s with
  | mk data =>
    cases data with
    | nil => simp
    | cons c cs => simp [String.ext_iff]

/-- Membership through the accumulator loop of List.eraseDups. -/
theorem mem_eraseDupsLoop {α : Type} [BEq α] [LawfulBEq α] (x : α) (as : List α) :
    ∀ bs : List α, x ∈ List.eraseDups.loop as bs ↔ x ∈ as ∨ x ∈ bs := by
  induction as with
  | nil => intro bs; simp [List.eraseDups.loop]
  | cons a as ih =>
    intro bs
    rw [List.eraseDups.loop]
    cases hm : bs.elem a with
    | true =>
      have ha : a ∈ bs := List.mem_of_elem_eq_true hm
      simp only [ih, List.mem_cons]
      constructor
      · rintro (h | h)
        · exact Or.inl (Or.inr h)
        · exact Or.inr h
      · rintro ((rfl | h) | h)
        · exact Or.inr ha
        · exact Or.inl h
        · exact Or.inr h
    | false =>
      simp only [ih, List.mem_cons]
      tauto

/-- The accumulator loop of List.eraseDups keeps the accumulator free of
duplicates. -/
theorem nodup_eraseDupsLoop {α : Type} [BEq α] [LawfulBEq α] (as : List α) :
    ∀ bs : List α, bs.Nodup → (List.eraseDups.loop as bs).Nodup := by
  induction as with
  | nil => intro bs h; simpa [List.eraseDups.loop, List.nodup_reverse] using h
  | cons a as ih =>
    intro bs h
    rw [List.eraseDups.loop]
    cases hm : bs.elem a with
    | true => exact ih bs h
    | false =>
      apply ih
      refine List.nodup_cons.mpr ⟨?_, h⟩
      intro hmem
      rw [List.elem_eq_true_of_mem hmem] at hm
      exact Bool.true_eq_false.mp hm

/-- List.eraseDups preserves membership. -/
theorem mem_eraseDups_iff {α : Type} [BEq α] [LawfulBEq α] (x : α) (l : List α) :
    x ∈ l.eraseDups ↔ x ∈ l := by
  rw [List.eraseDups]
  simp [mem_eraseDupsLoop]

/-- List.eraseDups returns a duplicate-free list. -/
theorem nodup_eraseDups {α : Type} [BEq α] [LawfulBEq α] (l : List α) :
    l.eraseDups.Nodup := by
  rw [List.eraseDups]
  exact nodup_eraseDupsLoop l [] List.nodup_nil

/-- Assigning ids preserves the number of incoming shapes. -/
theorem length_assignShapeIds (startId : Nat) (ps : List ShapePayload) :
    (assignShapeIds startId ps).length = ps.length := by
  induction ps generalizing startId with
  | nil => rfl
  | cons p ps ih => simp [assignShapeIds, ih]

/-- Every id assigned from startId on is at least startId. -/
theorem le_of_mem_assignShapeIds (startId : Nat) (ps : List ShapePayload) :
    ∀ r ∈ assignShapeIds startId ps, startId ≤ r.id := by
  induction ps generalizing startId with
  | nil => intro r h; cases h
  | cons p ps ih =>
    intro r h
    rcases List.mem_cons.mp h with rfl | h2
    · exact Nat.le_refl _
    · exact Nat.le_trans (Nat.le_succ _) (ih (startId + 1) r h2)

/-- Every member of a list of naturals is bounded by its foldr max. -/
theorem le_foldr_max (x : Nat) (l : List Nat) (h : x ∈ l) : x ≤ l.foldr max 0 := by
  induction l with
  | nil => cases h
  | cons a l ih =>
    rcases List.mem_cons.mp h with rfl | h2
    · exact Nat.le_max_left _ _
    · exact Nat.le_trans (ih h2) (Nat.le_max_right _ _)

/-- C1: for the files and users slices, a pending create (uploadFile and
createUser) only sets saving and clears error and leaves the cached list
unchanged; a fulfilled create appends exactly the returned record at the
end of the cache and clears saving; a rejected create clears saving, sets
the error message and leaves the cache untouched. -/
theorem create_no_optimistic_insert (s : FilesState) (us : UsersState)
    (rec : FileItem) (u : UserRow) (msgF msgU : String) :
    filesReducer s .uploadFilePending = { s with saving := true, error := none }
    ∧ (filesReducer s .uploadFilePending).list = s.list
    ∧ filesReducer s (.uploadFileFulfilled rec) =
        { s with saving := false, list := s.list ++ [rec] }
    ∧ filesReducer s (.uploadFileRejected msgF) =
        { s with saving := false, error := some msgF }
    ∧ (filesReducer s (.uploadFileRejected msgF)).list = s.list
    ∧ usersReducer us .createUserPending = { us with saving := true, error := none }
    ∧ (usersReducer us .createUserPending).list = us.list
    ∧ usersReducer us (.createUserFulfilled u) =
        { us with saving := false, list := us.list ++ [u] }
    ∧ usersReducer us (.createUserRejected msgU) =
        { us with saving := false, error := some msgU }
    ∧ (usersReducer us (.createUserRejected msgU)).list = us.list :=
  ⟨rfl, rfl, rfl, rfl, rfl, rfl, rfl, rfl, rfl, rfl⟩

/-- C2: for the files and users slices, a pending fetchAll sets loading
and clears error; a fulfilled fetchAll replaces the entire cached list
with the returned list and clears loading; a rejected fetchAll clears
loading, sets the error message and leaves the cached list unchanged. -/
theorem fetchAll_reconciliation (s : FilesState) (us : UsersState)
    (l : List FileItem) (ul : List UserRow) (msgF msgU : String) :
    filesReducer s .fetchFilesPending = { s with loading := true, error := none }
    ∧ filesReducer s (.fetchFilesFulfilled l) = { s with loading := false, list := l }
    ∧ filesReducer s (.fetchFilesRejected msgF) =
        { s with loading := false, error := some msgF }
    ∧ (filesReducer s (.fetchFilesRejected msgF)).list = s.list
    ∧ usersReducer us .fetchUsersPending = { us with loading := true, error := none }
    ∧ usersReducer us (.fetchUsersFulfilled ul) = { us with loading := false, list := ul }
    ∧ usersReducer us (.fetchUsersRejected msgU) =
        { us with loading := false, error := some msgU }
    ∧ (usersReducer us (.fetchUsersRejected msgU)).list = us.list :=
  ⟨rfl, rfl, rfl, rfl, rfl, rfl, rfl, rfl⟩

/-- C3: for the files and users slices, a fulfilled delete removes from
the cache exactly the records carrying the deleted id (membership
characterisation) while keeping the remaining records in their relative
order (sublist), clears saving and touches no other flag; a rejected
delete (a NotFound id included) only clears saving and sets the error
message, leaving the cached list completely unchanged. -/
theorem delete_reconciliation (s : FilesState) (us : UsersState)
    (idF idU : Nat) (msgF msgU : String) :
    List.Sublist (filesReducer s (.deleteFileFulfilled idF)).list s.list
    ∧ (∀ f : FileItem,
        f ∈ (filesReducer s (.deleteFileFulfilled idF)).list ↔ f ∈ s.list ∧ f.id ≠ idF)
    ∧ (filesReducer s (.deleteFileFulfilled idF)).saving = false
    ∧ (filesReducer s (.deleteFileFulfilled idF)).loading = s.loading
    ∧ (filesReducer s (.deleteFileFulfilled idF)).error = s.error
    ∧ filesReducer s (.deleteFileRejected msgF) =
        { s with saving := false, error := some msgF }
    ∧ (filesReducer s (.deleteFileRejected msgF)).list = s.list
    ∧ List.Sublist (usersReducer us (.deleteUserFulfilled idU)).list us.list
    ∧ (∀ u : UserRow,
        u ∈ (usersReducer us (.deleteUserFulfilled idU)).list ↔ u ∈ us.list ∧ u.id ≠ idU)
    ∧ (usersReducer us (.deleteUserFulfilled idU)).saving = false
    ∧ (usersReducer us (.deleteUserFulfilled idU)).loading = us.loading
    ∧ (usersReducer us (.deleteUserFulfilled idU)).error = us.error
    ∧ usersReducer us (.deleteUserRejected msgU) =
        { us with saving := false, error := some msgU }
    ∧ (usersReducer us (.deleteUserRejected msgU)).list = us.list := by
  refine ⟨List.filter_sublist _, ?_, rfl, rfl, rfl, rfl, rfl,
          List.filter_sublist _, ?_, rfl, rfl, rfl, rfl, rfl⟩
  · intro f
    simp [filesReducer, List.mem_filter]
  · intro u
    simp [usersReducer, List.mem_filter]

/-- C10: a pending or rejected fetchFile action leaves the files slice
state unchanged (no handler is registered for these phases, so no flag is
set, the cache is untouched and no error message is recorded), while the
rejected actions of every other files thunk do record the error message. -/
theorem fetchOne_failure_silent (s : FilesState) (msg : String) :
    filesReducer s .fetchFilePending = s
    ∧ filesReducer s (.fetchFileRejected msg) = s
    ∧ (filesReducer s (.fetchFilesRejected msg)).error = some msg
    ∧ (filesReducer s (.uploadFileRejected msg)).error = some msg
    ∧ (filesReducer s (.updateFileRejected msg)).error = some msg
    ∧ (filesReducer s (.deleteFileRejected msg)).error = some msg :=
  ⟨rfl, rfl, rfl, rfl, rfl, rfl⟩

/-- C4: a fulfilled fetchFile leaves every flag of the files slice
unchanged; when no cached record carries the returned id the whole state
is unchanged (no insertion); when a cached record carries the id, the
earliest such index is found and the record there is replaced in place:
the length and every other position are unchanged. -/
theorem fetchOne_fulfilled_in_place (s : FilesState) (rec : FileItem) :
    (filesReducer s (.fetchFileFulfilled rec)).loading = s.loading
    ∧ (filesReducer s (.fetchFileFulfilled rec)).saving = s.saving
    ∧ (filesReducer s (.fetchFileFulfilled rec)).error = s.error
    ∧ ((∀ f ∈ s.list, f.id ≠ rec.id) → filesReducer s (.fetchFileFulfilled rec) = s)
    ∧ ((∃ f ∈ s.list, f.id = rec.id) →
        ∃ i, s.list.findIdx? (fun f => f.id == rec.id) = some i)
    ∧ (∀ i, s.list.findIdx? (fun f => f.id == rec.id) = some i →
        (filesReducer s (.fetchFileFulfilled rec)).list.length = s.list.length
        ∧ (filesReducer s (.fetchFileFulfilled rec)).list[i]? = some rec
        ∧ ∀ j, j ≠ i → (filesReducer s (.fetchFileFulfilled rec)).list[j]? = s.list[j]?) := by
  refine ⟨?_, ?_, ?_, ?_, ?_, ?_⟩
  · cases h : s.list.findIdx? (fun f => f.id == rec.id) <;> simp [filesReducer, h]
  · cases h : s.list.findIdx? (fun f => f.id == rec.id) <;> simp [filesReducer, h]
  · cases h : s.list.findIdx? (fun f => f.id == rec.id) <;> simp [filesReducer, h]
  · intro hall
    have hn : s.list.findIdx? (fun f => f.id == rec.id) = none := by
      rw [List.findIdx?_eq_none_iff]
      intro x hx
      simpa using hall x hx
    simp [filesReducer, hn]
  · rintro ⟨f, hf, hid⟩
    exact ⟨_, List.findIdx?_eq_some_of_exists ⟨f, hf, by simpa using hid⟩⟩
  · intro i hi
    obtain ⟨hlen, hp, hmin⟩ := List.findIdx?_eq_some_iff_getElem.mp hi
    refine ⟨?_, ?_, ?_⟩
    · simp [filesReducer, hi]
    · simp [filesReducer, hi, List.getElem?_set_self hlen]
    · intro j hj
      simp [filesReducer, hi, List.getElem?_set_ne (Ne.symm hj)]

/-- Witness for C4: fetching a record whose id is cached nowhere leaves a
concrete one-record state unchanged. -/
theorem fetchOne_fulfilled_in_place_witness :
    filesReducer { filesInitialState with list := [exFileA] } (.fetchFileFulfilled exFileB)
      = { filesInitialState with list := [exFileA] } :=
  (fetchOne_fulfilled_in_place { filesInitialState with list := [exFileA] } exFileB).2.2.2.1
    (by decide)

/-- C5: membership in the visible set of the file manager.  With a
non-empty search text, a record is visible exactly when it is cached and
its name, one of its tags, or its project contains the lowercased text,
whatever the tree selection; with an empty search text, the root
selection shows every cached record and a folder selection shows exactly
the records whose folder equals the selected name. -/
theorem filteredList_visible_set (list : List FileItem) (searchQuery : String)
    (currentFolder : Option String) (f : FileItem) :
    (searchQuery ≠ "" →
      (f ∈ filteredListOf list searchQuery currentFolder ↔
        f ∈ list ∧
          (strIncludes f.name.toLower searchQuery.toLower = true
            ∨ (∃ t ∈ f.tags, strIncludes t.toLower searchQuery.toLower = true)
            ∨ strIncludes f.project.toLower searchQuery.toLower = true)))
    ∧ (searchQuery = "" → currentFolder = none →
        (f ∈ filteredListOf list searchQuery currentFolder ↔ f ∈ list))
    ∧ (∀ c, searchQuery = "" → currentFolder = some c →
        (f ∈ filteredListOf list searchQuery currentFolder ↔ f ∈ list ∧ f.folder = c)) := by
  have h0 : ("" : String).toLower = "" := (toLower_eq_empty_iff "").mpr rfl
  refine ⟨?_, ?_, ?_⟩
  · intro hq
    have hqne : searchQuery.toLower ≠ "" := fun h => hq ((toLower_eq_empty_iff _).mp h)
    have hq' : (searchQuery.toLower != "") = true := by simpa using hqne
    simp [filteredListOf, List.mem_filter, fileMatchesFilter, hq', hqne,
      List.any_eq_true, and_assoc, or_assoc]
  · intro hq hc
    subst hq; subst hc
    simp [filteredListOf, List.mem_filter, fileMatchesFilter, h0]
  · intro c hq hc
    subst hq; subst hc
    simp [filteredListOf, List.mem_filter, fileMatchesFilter, h0]

/-- Witness for C5: with an empty search text and folder docs selected, a
concrete record of that folder is visible. -/
theorem filteredList_visible_set_witness :
    exFileA ∈ filteredListOf [exFileA] "" (some "docs") :=
  ((filteredList_visible_set [exFileA] "" (some "docs") exFileA).2.2 "docs" rfl rfl).mpr
    ⟨List.mem_singleton.mpr rfl, rfl⟩

/-- C6: the folder list of the file manager tree is sorted, free of
duplicates, never contains the empty string, contains exactly the
non-empty folder values of cached records, and depends only on the folder
fields of the cache. -/
theorem folders_navigable_set (list : List FileItem) :
    List.Sorted (· ≤ ·) (foldersOf list)
    ∧ (foldersOf list).Nodup
    ∧ "" ∉ foldersOf list
    ∧ (∀ name : String, name ∈ foldersOf list ↔ name ≠ "" ∧ ∃ f ∈ list, f.folder = name)
    ∧ (∀ list2 : List FileItem,
        list.map (fun f => f.folder) = list2.map (fun f => f.folder) →
        foldersOf list = foldersOf list2) := by
  have hmem : ∀ name : String,
      name ∈ foldersOf list ↔ name ≠ "" ∧ ∃ f ∈ list, f.folder = name := by
    intro name
    simp only [foldersOf, List.mem_insertionSort, mem_eraseDups_iff, List.mem_filter,
      List.mem_map, bne_iff_ne]
    tauto
  refine ⟨List.sorted_insertionSort _ _, ?_, ?_, hmem, ?_⟩
  · exact ((List.perm_insertionSort _ _).nodup_iff).mpr (nodup_eraseDups _)
  · intro h
    exact ((hmem "").mp h).1 rfl
  · intro list2 h
    unfold foldersOf
    rw [h]

/-- Witness for C6: two concrete caches with the same folder fields yield
the same folder list. -/
theorem folders_navigable_set_witness :
    foldersOf [exFileA] = foldersOf [exFileE] :=
  (folders_navigable_set [exFileA]).2.2.2.2 [exFileE] (by decide)

/-- C7: a file card is locked exactly when its folder is non-empty and a
member of the locked-folder set; a record with an empty folder is never
locked; toggling the lock of the folder of a record flips its locked
state. -/
theorem locked_record_characterisation (lockedFolders : List String) (f : FileItem) :
    (fileCardLocked lockedFolders f = true ↔ f.folder ≠ "" ∧ f.folder ∈ lockedFolders)
    ∧ (f.folder = "" → fileCardLocked lockedFolders f = false)
    ∧ (f.folder ∈ lockedFolders →
        fileCardLocked (toggleFolderLock lockedFolders f.folder) f = false)
    ∧ (f.folder ∉ lockedFolders → f.folder ≠ "" →
        fileCardLocked (toggleFolderLock lockedFolders f.folder) f = true) := by
  refine ⟨?_, ?_, ?_, ?_⟩
  · simp [fileCardLocked, List.elem_iff, and_comm]
  · intro h
    simp [fileCardLocked, h]
  · intro h
    simp [toggleFolderLock, h, fileCardLocked, List.mem_filter]
  · intro h hne
    simp [toggleFolderLock, h, fileCardLocked, hne]

/-- Witness for C7: a concrete record with an empty folder is not locked
even when some folder is locked. -/
theorem locked_record_characterisation_witness :
    fileCardLocked ["docs"] exFileB = false :=
  (locked_record_characterisation ["docs"] exFileB).2.1 rfl

/-- C8: the fulfilled-update reconciliation differs between the slices.
There are a cached file record and an update response omitting the
content payload for which the files reducer merges, keeping the cached
payload, so its result differs from the response; and a cached user row
and a response omitting the avatar payload for which the users reducer
replaces the row wholesale, losing the cached payload. -/
theorem update_merge_vs_replace :
    ∃ (old resp : FileItem) (uold uresp : UserRow),
      old.id = resp.id ∧ resp.content_base64 = none ∧ old.content_base64 ≠ none
      ∧ (filesReducer { filesInitialState with list := [old], saving := true }
          (.updateFileFulfilled resp)).list = [mergeFileItem old resp]
      ∧ (mergeFileItem old resp).content_base64 = old.content_base64
      ∧ mergeFileItem old resp ≠ resp
      ∧ uold.id = uresp.id ∧ uresp.avatar_base64 = none ∧ uold.avatar_base64 ≠ none
      ∧ (usersReducer { usersInitialState with list := [uold], saving := true }
          (.updateUserFulfilled uresp)).list = [uresp]
      ∧ (usersReducer { usersInitialState with list := [uold], saving := true }
          (.updateUserFulfilled uresp)).list ≠ [uold] :=
  ⟨exFileC, exFileD, exUserA, exUserB, by decide⟩

/-- C9: appending shapes to the Remote Store collection is additive — the
resulting list of a subsequent GET holds the old records first (nothing
removed), grows by exactly the number of incoming shapes, gives every
incoming shape a fresh id not present before, and posting one shape over
two existing ones yields three. -/
theorem saveShapes_additive (store : List StoredShapeRec) (incoming : List ShapePayload) :
    (shapesList (shapesAppend store incoming)).length = store.length + incoming.length
    ∧ (shapesList (shapesAppend store incoming)).take store.length = store
    ∧ (∀ t ∈ store, t ∈ shapesList (shapesAppend store incoming))
    ∧ (∀ r ∈ assignShapeIds (shapesNextId store) incoming, ∀ t ∈ store, r.id ≠ t.id)
    ∧ (∀ (s1 s2 : StoredShapeRec) (p : ShapePayload),
        (shapesList (shapesAppend [s1, s2] [p])).length = 3) := by
  refine ⟨?_, ?_, ?_, ?_, ?_⟩
  · simp [shapesList, shapesAppend, length_assignShapeIds]
  · simp [shapesList, shapesAppend, List.take_left]
  · intro t h
    simp only [shapesList, shapesAppend, List.mem_append]
    exact Or.inl h
  · intro r hr t ht
    have h1 : shapesNextId store ≤ r.id := le_of_mem_assignShapeIds _ _ r hr
    have h2 : t.id < shapesNextId store := by
      have hb : t.id ≤ (store.map (fun s => s.id)).foldr max 0 :=
        le_foldr_max _ _ (List.mem_map.mpr ⟨t, ht, rfl⟩)
      exact Nat.lt_succ_of_le hb
    exact Nat.ne_of_gt (Nat.lt_of_lt_of_le h2 h1)
  · intro s1 s2 p
    simp [shapesList, shapesAppend, assignShapeIds]

/-- Witness for C9: posting one concrete shape over two existing ones
yields three shapes. -/
theorem saveShapes_additive_witness :
    (shapesList (shapesAppend [exShape1, exShape2] [exPayload1])).length = 3 :=
  (saveShapes_additive [exShape1, exShape2] [exPayload1]).2.2.2.2 exShape1 exShape2 exPayload1
